import Mathlib

/-!
Shallow embedding of the `wv` Rust wrapper (src/lib.rs) around the native
webview C library, together with proofs checking the specification's claims
about it.

Modelling conventions:
* `webview_t` (an opaque native pointer) is modelled as a `Nat` handle value.
* Rust strings are Lean `String`s; `CString::new` becomes `cstringNew`,
  failing exactly when the input contains an embedded NUL character.
* each native call that an operation issues is recorded in a `List NativeCall`
  trace; the integer status the native call returns is passed to the
  operation as an explicit `ret : Int` parameter (the native library is an
  opaque external collaborator, so its status is an input of the model).
* `std::mem::transmute::<i32, WvErrorKind>` is modelled by `transmuteI32`:
  a code matching one of the seven `repr(i32)` discriminants produces that
  variant (`TransmutedKind.valid`), any other code is undefined behaviour in
  Rust and is modelled as `TransmutedKind.invalid` carrying the raw bits.
* heap ownership of boxed closures passed over the FFI boundary is modelled
  by multisets (lists) of closure identifiers: `Box::into_raw` adds the id,
  `Box::from_raw` removes it, `mem::forget` re-adds it without running
  the destructor.
-/

/-- Opaque native handle value (the `webview_t` pointer). -/
abbrev Handle := Nat

/-- The seven `repr(i32)` variants of `WvErrorKind` in src/lib.rs. -/
inductive WvErrorKind where
  | MissingDependency
  | OperationCancelled
  | InvalidState
  | InvalidArgument
  | Unspecified
  | Duplicate
  | NotFound
deriving DecidableEq

/-- The `repr(i32)` discriminant of each `WvErrorKind` variant. -/
def WvErrorKind.code : WvErrorKind → Int
  | .MissingDependency => -5
  | .OperationCancelled => -4
  | .InvalidState => -3
  | .InvalidArgument => -2
  | .Unspecified => -1
  | .Duplicate => 1
  | .NotFound => 2

/-- Result of `std::mem::transmute::<i32, WvErrorKind>`: either a valid
variant, or (for an integer matching no discriminant) undefined behaviour,
modelled as `invalid` carrying the raw bits. -/
inductive TransmutedKind where
  | valid : WvErrorKind → TransmutedKind
  | invalid : Int → TransmutedKind
deriving DecidableEq

/-- Models the unchecked `std::mem::transmute(ret)` used on every non-zero
native status in src/lib.rs. -/
def transmuteI32 (c : Int) : TransmutedKind :=
  if c = -5 then .valid .MissingDependency
  else if c = -4 then .valid .OperationCancelled
  else if c = -3 then .valid .InvalidState
  else if c = -2 then .valid .InvalidArgument
  else if c = -1 then .valid .Unspecified
  else if c = 1 then .valid .Duplicate
  else if c = 2 then .valid .NotFound
  else .invalid c

/-- The `WvError` enum of src/lib.rs. Payloads of the wrapped std error
types are modelled by their observable content: `NullError` carries the
offending input string (as `std::ffi::NulError` carries the bytes),
`Internal` carries the transmuted kind, `Unknown` carries its `String`. -/
inductive WvError where
  | IoError (msg : String)
  | Utf8Error (bytes : List Nat)
  | NullError (input : String)
  | Internal (kind : TransmutedKind)
  | EnvVarError (msg : String)
  | ParseIntError (msg : String)
  | Unknown (msg : String)
deriving DecidableEq

/-- True when the string contains an embedded NUL character. -/
def hasNul (s : String) : Bool := s.data.any fun c => c == Char.ofNat 0

/-- Models `CString::new(s)?` with the `From<NulError> for WvError`
conversion: fails with `WvError::NullError` exactly when `s` contains a
NUL byte, otherwise yields the C string (same character content). -/
def cstringNew (s : String) : Except WvError String :=
  if hasNul s then .error (.NullError s) else .ok s

/-- The `repr(u32)` SizeHint enum of src/lib.rs. -/
inductive SizeHint where
  | None
  | Min
  | Max
  | Fixed
deriving DecidableEq

/-- The `hints as u32` cast used by `Webview::set_size`. -/
def SizeHint.toU32 : SizeHint → Nat
  | .None => 0
  | .Min => 1
  | .Max => 2
  | .Fixed => 3

/-- One call into the native webview C library, with the arguments the
wrapper passes. Closures handed over the boundary are identified by a
closure id (the raw `Box` pointer). -/
inductive NativeCall where
  | navigate (h : Handle) (url : String)
  | init (h : Handle) (js : String)
  | eval (h : Handle) (js : String)
  | dispatch (h : Handle) (closureId : Nat)
  | bind (h : Handle) (name : String) (closureId : Nat)
  | unbind (h : Handle) (name : String)
  | return_ (h : Handle) (seq : String) (status : Int) (result : String)
  | set_size (h : Handle) (width height : Int) (hints : Nat)
  | set_title (h : Handle) (title : String)
  | run (h : Handle)
  | terminate (h : Handle)
  | destroy (h : Handle)
deriving DecidableEq

/-- The `Webview` wrapper struct: its one field is the `Arc<webview_t>`,
whose pointee handle value we record (the shared strong count lives in
`ArcState`). -/
structure Webview where
  inner : Handle
deriving DecidableEq

/-- The strong reference count of the shared `Arc<webview_t>` allocation. -/
structure ArcState where
  strong : Nat
deriving DecidableEq

/-- Embeds `Webview::create_no_win`: wraps the handle returned by
`webview_create` in a fresh `Arc` (strong count 1). The `dbg` flag is
forwarded to the native side and does not affect the wrapper state. -/
def create_no_win (dbg : Bool) (h : Handle) : Webview × ArcState :=
  (⟨h⟩, ⟨1⟩)

/-- Embeds `Clone` for `Webview` (derived): clones the `Arc`, incrementing
the strong count. -/
def Webview.clone (self : Webview) (st : ArcState) : Webview × ArcState :=
  (⟨self.inner⟩, ⟨st.strong + 1⟩)

/-- Embeds `impl Drop for Webview`. The body observes
`Arc::strong_count(&self.inner)` while the `Arc` field is still alive, so
the count it reads still includes this reference; it calls
`webview_terminate` then `webview_destroy` only when that count is `0`.
After the body, the `Arc` field itself is dropped, decrementing the count. -/
def Webview.drop (self : Webview) (st : ArcState) : ArcState × List NativeCall :=
  (⟨st.strong - 1⟩,
    if st.strong = 0 then [.terminate self.inner, .destroy self.inner] else [])

/-- Clones the webview n times, returning the final strong count state. -/
def cloneMany (self : Webview) : Nat → ArcState → ArcState
  | 0, st => st
  | n + 1, st => cloneMany self n (self.clone st).2

/-- Drops n references in sequence, concatenating the native calls each
drop performs. -/
def dropMany (self : Webview) : Nat → ArcState → ArcState × List NativeCall
  | 0, st => (st, [])
  | n + 1, st =>
    let d := self.drop st
    let rest := dropMany self n d.1
    (rest.1, d.2 ++ rest.2)

/-- Embeds `Webview::navigate`: convert the url with `CString::new` (early
return on NUL), issue `webview_navigate`, translate a non-zero status. -/
def Webview.navigate (self : Webview) (url : String) (ret : Int) :
    Except WvError Unit × List NativeCall :=
  match cstringNew url with
  | .error e => (.error e, [])
  | .ok curl =>
    ((if ret ≠ 0 then .error (.Internal (transmuteI32 ret)) else .ok ()),
      [.navigate self.inner curl])

/-- Embeds `Webview::set_html`: navigates to the data URL built from the
html (`String::from("data:text/html;charset=utf-8,") + html`). -/
def Webview.set_html (self : Webview) (html : String) (ret : Int) :
    Except WvError Unit × List NativeCall :=
  self.navigate ("data:text/html;charset=utf-8," ++ html) ret

/-- Embeds `Webview::init`. -/
def Webview.init (self : Webview) (js : String) (ret : Int) :
    Except WvError Unit × List NativeCall :=
  match cstringNew js with
  | .error e => (.error e, [])
  | .ok cjs =>
    ((if ret ≠ 0 then .error (.Internal (transmuteI32 ret)) else .ok ()),
      [.init self.inner cjs])

/-- Embeds `Webview::eval`. -/
def Webview.eval (self : Webview) (js : String) (ret : Int) :
    Except WvError Unit × List NativeCall :=
  match cstringNew js with
  | .error e => (.error e, [])
  | .ok cjs =>
    ((if ret ≠ 0 then .error (.Internal (transmuteI32 ret)) else .ok ()),
      [.eval self.inner cjs])

/-- Embeds `Webview::unbind`. -/
def Webview.unbind (self : Webview) (name : String) (ret : Int) :
    Except WvError Unit × List NativeCall :=
  match cstringNew name with
  | .error e => (.error e, [])
  | .ok cname =>
    ((if ret ≠ 0 then .error (.Internal (transmuteI32 ret)) else .ok ()),
      [.unbind self.inner cname])

/-- Embeds `Webview::return_`: converts `seq` then `result` (early return
on the first NUL found, in that order), then issues `webview_return`. -/
def Webview.return_ (self : Webview) (seq : String) (status : Int)
    (result : String) (ret : Int) : Except WvError Unit × List NativeCall :=
  match cstringNew seq with
  | .error e => (.error e, [])
  | .ok cseq =>
    match cstringNew result with
    | .error e => (.error e, [])
    | .ok cresult =>
      ((if ret ≠ 0 then .error (.Internal (transmuteI32 ret)) else .ok ()),
        [.return_ self.inner cseq status cresult])

/-- Embeds `Webview::set_size`: forwards width, height and `hints as u32`
to `webview_set_size`. -/
def Webview.set_size (self : Webview) (width height : Int) (hints : SizeHint)
    (ret : Int) : Except WvError Unit × List NativeCall :=
  ((if ret ≠ 0 then .error (.Internal (transmuteI32 ret)) else .ok ()),
    [.set_size self.inner width height hints.toU32])

/-- Embeds `Webview::set_title`. -/
def Webview.set_title (self : Webview) (title : String) (ret : Int) :
    Except WvError Unit × List NativeCall :=
  match cstringNew title with
  | .error e => (.error e, [])
  | .ok ctitle =>
    ((if ret ≠ 0 then .error (.Internal (transmuteI32 ret)) else .ok ()),
      [.set_title self.inner ctitle])

/-- Embeds `Webview::run`. -/
def Webview.run (self : Webview) (ret : Int) :
    Except WvError Unit × List NativeCall :=
  ((if ret = 0 then .ok () else .error (.Internal (transmuteI32 ret))),
    [.run self.inner])

/-- State of the one-shot dispatch bridge and the native scheduler.
`pending` is the native scheduler's FIFO of accepted dispatch requests
(handle passed to `webview_dispatch`, closure id); the spec's native ABI
contract is that the scheduler invokes each accepted callback at most once,
at a later point, with that handle — modelled by removal from the queue at
invocation. `heap` is the multiset of closure ids currently allocated on
the Rust heap and owned through a raw pointer. `invoked` logs each closure
invocation together with the `inner` handle of the `Webview` value the
closure received. -/
structure DispatchState where
  pending : List (Handle × Nat)
  heap : List Nat
  invoked : List (Nat × Handle)
deriving DecidableEq

/-- Embeds `Webview::dispatch`: `Box::into_raw(Box::new(f))` transfers the
closure to a raw pointer (it joins `heap`), then `webview_dispatch` is
issued; on status 0 the scheduler accepts the request (it joins `pending`),
on a non-zero status the translated error is returned and the wrapper does
not reclaim the closure. -/
def Webview.dispatch (self : Webview) (cid : Nat) (ret : Int)
    (st : DispatchState) :
    Except WvError Unit × List NativeCall × DispatchState :=
  let st1 : DispatchState := { st with heap := st.heap ++ [cid] }
  if ret = 0 then
    (.ok (), [.dispatch self.inner cid],
      { st1 with pending := st1.pending ++ [(self.inner, cid)] })
  else
    (.error (.Internal (transmuteI32 ret)), [.dispatch self.inner cid], st1)

/-- Embeds the body of `dispatch::callback<F>`, run by the native loop with
the raw handle and the closure pointer: it wraps the handle in a new `Arc`
(`Webview { inner: Arc::new(webview) }`), reclaims the closure with
`Box::from_raw` (removing it from the heap), and invokes it once on that
`Webview`. Returns the `Webview` value the closure received. -/
def dispatchCallback (h : Handle) (cid : Nat) (st : DispatchState) :
    Webview × DispatchState :=
  (⟨h⟩, { st with heap := st.heap.erase cid, invoked := st.invoked ++ [(cid, h)] })

/-- One step of the native event loop: if a dispatch request is pending,
invoke `dispatch::callback` on the oldest one (consuming it). -/
def loopStep (st : DispatchState) : DispatchState :=
  match st.pending with
  | [] => st
  | (h, cid) :: rest => (dispatchCallback h cid { st with pending := rest }).2

/-- Runs n native loop steps. -/
def loopSteps : Nat → DispatchState → DispatchState
  | 0, st => st
  | n + 1, st => loopSteps n (loopStep st)

/-- Number of pending dispatch entries for closure `cid`. -/
def pendCount (cid : Nat) (st : DispatchState) : Nat :=
  st.pending.countP fun p => p.2 == cid

/-- Number of logged invocations of closure `cid`. -/
def invCount (cid : Nat) (st : DispatchState) : Nat :=
  st.invoked.countP fun q => q.1 == cid

/-- Number of heap allocations owned for closure `cid`. -/
def heapCount (cid : Nat) (st : DispatchState) : Nat :=
  st.heap.count cid

/-- State of the named-binding bridge: `heap` is the multiset of handler
closure ids currently allocated (owned across the FFI boundary), `calls`
logs each handler invocation as (closure id, decoded seq, decoded req),
with the two arguments given as the decoded Unicode scalar values. -/
structure BindState where
  heap : List Nat
  calls : List (Nat × List Nat × List Nat)
deriving DecidableEq

/-- Embeds `Webview::bind`: convert the name with `CString::new` (early
return on NUL), box the handler and `Box::into_raw` it (it joins `heap`),
issue `webview_bind`, translate a non-zero status. -/
def Webview.bind (self : Webview) (name : String) (cid : Nat) (ret : Int)
    (st : BindState) :
    Except WvError Unit × List NativeCall × BindState :=
  match cstringNew name with
  | .error e => (.error e, [], st)
  | .ok cname =>
    let st1 : BindState := { st with heap := st.heap ++ [cid] }
    ((if ret ≠ 0 then .error (.Internal (transmuteI32 ret)) else .ok ()),
      [.bind self.inner cname cid], st1)

/-- True when the byte is a UTF-8 continuation byte (0x80..0xBF). -/
def utf8Cont (c : Nat) : Bool := 0x80 ≤ c && c ≤ 0xBF

/-- Decodes a byte sequence as UTF-8, yielding the Unicode scalar values,
or `none` when the bytes are not valid UTF-8 (overlong forms, surrogates
and out-of-range leads all rejected, as in Rust's `str::from_utf8` which
`CStr::to_str` calls). -/
def utf8Decode : List Nat → Option (List Nat)
  | [] => some []
  | b :: rest =>
    if b < 0x80 then (utf8Decode rest).map fun t => b :: t
    else if 0xC2 ≤ b && b ≤ 0xDF then
      match rest with
      | c1 :: r =>
        if utf8Cont c1 then
          (utf8Decode r).map fun t => ((b - 0xC0) * 0x40 + (c1 - 0x80)) :: t
        else none
      | [] => none
    else if 0xE0 ≤ b && b ≤ 0xEF then
      match rest with
      | c1 :: c2 :: r =>
        let lo1 := if b = 0xE0 then 0xA0 else 0x80
        let hi1 := if b = 0xED then 0x9F else 0xBF
        if (lo1 ≤ c1 && c1 ≤ hi1) && utf8Cont c2 then
          (utf8Decode r).map fun t =>
            ((b - 0xE0) * 0x1000 + (c1 - 0x80) * 0x40 + (c2 - 0x80)) :: t
        else none
      | _ => none
    else if 0xF0 ≤ b && b ≤ 0xF4 then
      match rest with
      | c1 :: c2 :: c3 :: r =>
        let lo1 := if b = 0xF0 then 0x90 else 0x80
        let hi1 := if b = 0xF4 then 0x8F else 0xBF
        if ((lo1 ≤ c1 && c1 ≤ hi1) && utf8Cont c2) && utf8Cont c3 then
          (utf8Decode r).map fun t =>
            ((b - 0xF0) * 0x40000 + (c1 - 0x80) * 0x1000 +
              (c2 - 0x80) * 0x40 + (c3 - 0x80)) :: t
        else none
      | _ => none
    else none

/-- Outcome of one native invocation of `bind::callback<F>`: either a panic
from one of the two `expect` calls (with its message), or an invocation of
the registered handler with the two decoded strings. -/
inductive BindOutcome where
  | panicked (msg : String)
  | handlerRan (seq req : List Nat)
deriving DecidableEq

/-- Embeds the body of `bind::callback<F>`, run by the native engine with
the two C strings (given as their bytes) and the handler pointer: decode
`seq` then `req` with `CStr::to_str` + `expect` (panicking on invalid
UTF-8 before touching the handler), then `Box::from_raw` the handler
(removing it from the heap), invoke it once, and `mem::forget` it (putting
it back on the heap without running its destructor). -/
def bindCallback (cid : Nat) (seqB reqB : List Nat) (st : BindState) :
    BindOutcome × BindState :=
  match utf8Decode seqB with
  | none => (.panicked "No null bytes in parameter seq", st)
  | some seq =>
    match utf8Decode reqB with
    | none => (.panicked "No null bytes in parameter req", st)
    | some req =>
      let st1 : BindState := { st with heap := st.heap.erase cid }
      let st2 : BindState := { st1 with calls := st1.calls ++ [(cid, seq, req)] }
      (.handlerRan seq req, { st2 with heap := st2.heap ++ [cid] })

/-- Runs a sequence of native invocations of `bind::callback` for the
handler `cid`, each with its pair of byte strings. -/
def runInvocations (cid : Nat) : List (List Nat × List Nat) → BindState → BindState
  | [], st => st
  | (s, r) :: rest, st => runInvocations cid rest (bindCallback cid s r st).2

/-- Specification-side list of the closed native status codes
(success 0 plus the seven error discriminants). -/
def closedCodes : List Int := [-5, -4, -3, -2, -1, 0, 1, 2]

/-- Specification-side table mapping each non-zero closed status code to
the error kind the claim requires. -/
def specKindFor (c : Int) : WvErrorKind :=
  if c = -5 then .MissingDependency
  else if c = -4 then .OperationCancelled
  else if c = -3 then .InvalidState
  else if c = -2 then .InvalidArgument
  else if c = -1 then .Unspecified
  else if c = 1 then .Duplicate
  else .NotFound

/-- Specification-side expected result of a wrapped operation for a status
code in the closed set: Ok for 0, otherwise the Internal error with the
kind determined by the exact integer value. -/
def specExpected (c : Int) : Except WvError Unit :=
  if c = 0 then .ok () else .error (.Internal (.valid (specKindFor c)))

/-- True when the result is the wrapper-local Unknown error. -/
def resultIsUnknown : Except WvError Unit → Bool
  | .error (.Unknown _) => true
  | _ => false

/-- Specification-side definition of `set_html`: navigate applied to the
concatenation of the data-URL prefix and the html string. -/
def set_html_spec (self : Webview) (html : String) (ret : Int) :
    Except WvError Unit × List NativeCall :=
  self.navigate ("data:text/html;charset=utf-8," ++ html) ret

lemma cstringNew_ok {s : String} (h : hasNul s = false) :
    cstringNew s = .ok s := by
  simp [cstringNew, h]

lemma hasNul_append (s t : String) :
    hasNul (s ++ t) = (hasNul s || hasNul t) := by
  simp [hasNul, String.data_append, List.any_append]

lemma transmuteI32_code (k : WvErrorKind) : transmuteI32 k.code = .valid k := by
  cases k <;> rfl

lemma transmuteI32_not_closed {c : Int} (hc : c ∉ closedCodes) :
    transmuteI32 c = .invalid c := by
  simp only [closedCodes, List.mem_cons, List.not_mem_nil, or_false] at hc
  push_neg at hc
  obtain ⟨h1, h2, h3, h4, h5, _, h7, h8⟩ := hc
  simp [transmuteI32, h1, h2, h3, h4, h5, h7, h8]

/-- C2: For every wrapped operation (navigate, init, eval, dispatch, bind,
unbind, return_, set_size, set_title, run) and every native status code c
in the closed set, the operation returns Ok exactly when c is 0, and for
non-zero c it returns the Internal error whose kind is determined by the
exact integer value of c (MissingDependency = -5, OperationCancelled = -4,
InvalidState = -3, InvalidArgument = -2, Unspecified = -1, Duplicate = 1,
NotFound = 2). Determinism (equal codes give equal results) is immediate
because every operation is embedded as a pure function of the code. -/
theorem C2_closed_status_translation
    (c : Int) (hc : c ∈ closedCodes) (self : Webview)
    (url js1 js2 name1 name2 seq res title : String) (cid : Nat)
    (dst : DispatchState) (bst : BindState) (w ht : Int) (hint : SizeHint)
    (status : Int)
    (hurl : hasNul url = false) (hjs1 : hasNul js1 = false)
    (hjs2 : hasNul js2 = false) (hn1 : hasNul name1 = false)
    (hn2 : hasNul name2 = false) (hseq : hasNul seq = false)
    (hres : hasNul res = false) (htitle : hasNul title = false) :
    (self.navigate url c).1 = specExpected c ∧
    (self.init js1 c).1 = specExpected c ∧
    (self.eval js2 c).1 = specExpected c ∧
    (self.dispatch cid c dst).1 = specExpected c ∧
    (self.bind name1 cid c bst).1 = specExpected c ∧
    (self.unbind name2 c).1 = specExpected c ∧
    (self.return_ seq status res c).1 = specExpected c ∧
    (self.set_size w ht hint c).1 = specExpected c ∧
    (self.set_title title c).1 = specExpected c ∧
    (self.run c).1 = specExpected c := by
  simp only [closedCodes, List.mem_cons, List.not_mem_nil, or_false] at hc
  rcases hc with rfl | rfl | rfl | rfl | rfl | rfl | rfl | rfl <;>
    refine ⟨?_, ?_, ?_, ?_, ?_, ?_, ?_, ?_, ?_, ?_⟩ <;>
      simp [Webview.navigate, Webview.init, Webview.eval, Webview.dispatch,
        Webview.bind, Webview.unbind, Webview.return_, Webview.set_size,
        Webview.set_title, Webview.run, cstringNew_ok hurl, cstringNew_ok hjs1,
        cstringNew_ok hjs2, cstringNew_ok hn1, cstringNew_ok hn2,
        cstringNew_ok hseq, cstringNew_ok hres, cstringNew_ok htitle,
        specExpected, specKindFor, transmuteI32]

/-- Witness for C2 at status -3 on concrete inputs. -/
theorem C2_witness :
    (((-3 : Int) ∈ closedCodes ∧ hasNul "s" = false) ∧
      ((Webview.mk 7).navigate "s" (-3)).1 = specExpected (-3) ∧
      ((Webview.mk 7).init "s" (-3)).1 = specExpected (-3) ∧
      ((Webview.mk 7).eval "s" (-3)).1 = specExpected (-3) ∧
      ((Webview.mk 7).dispatch 0 (-3) ⟨[], [], []⟩).1 = specExpected (-3) ∧
      ((Webview.mk 7).bind "s" 0 (-3) ⟨[], []⟩).1 = specExpected (-3) ∧
      ((Webview.mk 7).unbind "s" (-3)).1 = specExpected (-3) ∧
      ((Webview.mk 7).return_ "s" 1 "s" (-3)).1 = specExpected (-3) ∧
      ((Webview.mk 7).set_size 1 2 SizeHint.Fixed (-3)).1 = specExpected (-3) ∧
      ((Webview.mk 7).set_title "s" (-3)).1 = specExpected (-3) ∧
      ((Webview.mk 7).run (-3)).1 = specExpected (-3)) :=
  ⟨⟨by decide, by decide⟩,
    C2_closed_status_translation (-3) (by decide) ⟨7⟩ "s" "s" "s" "s" "s" "s"
      "s" "s" 0 ⟨[], [], []⟩ ⟨[], []⟩ 1 2 SizeHint.Fixed 1 (by decide)
      (by decide) (by decide) (by decide) (by decide) (by decide) (by decide)
      (by decide)⟩

/-- C3 counterexample: the native status 5 lies outside the closed set,
yet navigate on handle 7 returns the Internal error holding the unchecked
numeric reinterpretation of 5, not the wrapper-local Unknown error the
claim requires. -/
theorem C3_counterexample :
    ((Webview.mk 7).navigate "u" 5).1 =
        .error (.Internal (.invalid 5)) ∧
    resultIsUnknown ((Webview.mk 7).navigate "u" 5).1 = false :=
  ⟨rfl, rfl⟩

/-- C3 amended: for every native status code outside the closed set, a
wrapped operation receiving that status coerces the code into the error
kind enumeration by an unchecked numeric reinterpretation (undefined
behaviour of `std::mem::transmute` in the source, modelled as
`TransmutedKind.invalid` carrying the raw code); the wrapper-local Unknown
error is never produced on this path. -/
theorem C3_amended_out_of_range_coerced
    (c : Int) (hc : c ∉ closedCodes) (self : Webview)
    (url js1 js2 name1 name2 seq res title : String) (cid : Nat)
    (dst : DispatchState) (bst : BindState) (w ht : Int) (hint : SizeHint)
    (status : Int)
    (hurl : hasNul url = false) (hjs1 : hasNul js1 = false)
    (hjs2 : hasNul js2 = false) (hn1 : hasNul name1 = false)
    (hn2 : hasNul name2 = false) (hseq : hasNul seq = false)
    (hres : hasNul res = false) (htitle : hasNul title = false) :
    (self.navigate url c).1 = .error (.Internal (.invalid c)) ∧
    (self.init js1 c).1 = .error (.Internal (.invalid c)) ∧
    (self.eval js2 c).1 = .error (.Internal (.invalid c)) ∧
    (self.dispatch cid c dst).1 = .error (.Internal (.invalid c)) ∧
    (self.bind name1 cid c bst).1 = .error (.Internal (.invalid c)) ∧
    (self.unbind name2 c).1 = .error (.Internal (.invalid c)) ∧
    (self.return_ seq status res c).1 = .error (.Internal (.invalid c)) ∧
    (self.set_size w ht hint c).1 = .error (.Internal (.invalid c)) ∧
    (self.set_title title c).1 = .error (.Internal (.invalid c)) ∧
    (self.run c).1 = .error (.Internal (.invalid c)) := by
  have h0 : c ≠ 0 := by
    intro h
    exact hc (by simp [closedCodes, h])
  have ht32 := transmuteI32_not_closed hc
  refine ⟨?_, ?_, ?_, ?_, ?_, ?_, ?_, ?_, ?_, ?_⟩ <;>
    simp [Webview.navigate, Webview.init, Webview.eval, Webview.dispatch,
      Webview.bind, Webview.unbind, Webview.return_, Webview.set_size,
      Webview.set_title, Webview.run, cstringNew_ok hurl, cstringNew_ok hjs1,
      cstringNew_ok hjs2, cstringNew_ok hn1, cstringNew_ok hn2,
      cstringNew_ok hseq, cstringNew_ok hres, cstringNew_ok htitle,
      h0, ht32]

/-- Witness for the amended C3 at status 5 on concrete inputs. -/
theorem C3_amended_witness :
    (((5 : Int) ∉ closedCodes ∧ hasNul "s" = false) ∧
      ((Webview.mk 7).navigate "s" 5).1 = .error (.Internal (.invalid 5)) ∧
      ((Webview.mk 7).init "s" 5).1 = .error (.Internal (.invalid 5)) ∧
      ((Webview.mk 7).eval "s" 5).1 = .error (.Internal (.invalid 5)) ∧
      ((Webview.mk 7).dispatch 0 5 ⟨[], [], []⟩).1 =
        .error (.Internal (.invalid 5)) ∧
      ((Webview.mk 7).bind "s" 0 5 ⟨[], []⟩).1 =
        .error (.Internal (.invalid 5)) ∧
      ((Webview.mk 7).unbind "s" 5).1 = .error (.Internal (.invalid 5)) ∧
      ((Webview.mk 7).return_ "s" 1 "s" 5).1 =
        .error (.Internal (.invalid 5)) ∧
      ((Webview.mk 7).set_size 1 2 SizeHint.Fixed 5).1 =
        .error (.Internal (.invalid 5)) ∧
      ((Webview.mk 7).set_title "s" 5).1 = .error (.Internal (.invalid 5)) ∧
      ((Webview.mk 7).run 5).1 = .error (.Internal (.invalid 5))) :=
  ⟨⟨by decide, by decide⟩,
    C3_amended_out_of_range_coerced 5 (by decide) ⟨7⟩ "s" "s" "s" "s" "s" "s"
      "s" "s" 0 ⟨[], [], []⟩ ⟨[], []⟩ 1 2 SizeHint.Fixed 1 (by decide)
      (by decide) (by decide) (by decide) (by decide) (by decide) (by decide)
      (by decide)⟩

/-- C4: for every string-bearing operation (navigate, set_html, init, eval,
bind, unbind, return_, set_title) and every input string containing an
embedded NUL character, the operation returns the NullError
string-conversion error and issues no native call at all. -/
theorem C4_nul_string_rejected_before_native_call
    (self : Webview) (s : String) (hs : hasNul s = true)
    (cid : Nat) (bst : BindState) (status ret : Int)
    (t : String) (htnul : hasNul t = false) :
    self.navigate s ret = (.error (.NullError s), []) ∧
    self.set_html s ret =
      (.error (.NullError ("data:text/html;charset=utf-8," ++ s)), []) ∧
    self.init s ret = (.error (.NullError s), []) ∧
    self.eval s ret = (.error (.NullError s), []) ∧
    self.bind s cid ret bst = (.error (.NullError s), [], bst) ∧
    self.unbind s ret = (.error (.NullError s), []) ∧
    self.return_ s status t ret = (.error (.NullError s), []) ∧
    self.return_ t status s ret = (.error (.NullError s), []) ∧
    self.set_title s ret = (.error (.NullError s), []) := by
  have hps : hasNul ("data:text/html;charset=utf-8," ++ s) = true := by
    rw [hasNul_append, hs]
    simp
  refine ⟨?_, ?_, ?_, ?_, ?_, ?_, ?_, ?_, ?_⟩ <;>
    simp [Webview.navigate, Webview.set_html, Webview.init, Webview.eval,
      Webview.bind, Webview.unbind, Webview.return_, Webview.set_title,
      cstringNew, hs, hps, htnul]

/-- Witness for C4 with the string "a\x00b" (embedded NUL). -/
theorem C4_witness :
    ((hasNul "a\x00b" = true ∧ hasNul "t" = false) ∧
      (Webview.mk 7).navigate "a\x00b" 0 =
        (.error (.NullError "a\x00b"), []) ∧
      (Webview.mk 7).set_html "a\x00b" 0 =
        (.error (.NullError ("data:text/html;charset=utf-8," ++ "a\x00b")),
          []) ∧
      (Webview.mk 7).init "a\x00b" 0 = (.error (.NullError "a\x00b"), []) ∧
      (Webview.mk 7).eval "a\x00b" 0 = (.error (.NullError "a\x00b"), []) ∧
      (Webview.mk 7).bind "a\x00b" 3 0 ⟨[], []⟩ =
        (.error (.NullError "a\x00b"), [], (⟨[], []⟩ : BindState)) ∧
      (Webview.mk 7).unbind "a\x00b" 0 = (.error (.NullError "a\x00b"), []) ∧
      (Webview.mk 7).return_ "a\x00b" 1 "t" 0 =
        (.error (.NullError "a\x00b"), []) ∧
      (Webview.mk 7).return_ "t" 1 "a\x00b" 0 =
        (.error (.NullError "a\x00b"), []) ∧
      (Webview.mk 7).set_title "a\x00b" 0 =
        (.error (.NullError "a\x00b"), [])) :=
  ⟨⟨by decide, by decide⟩,
    C4_nul_string_rejected_before_native_call ⟨7⟩ "a\x00b" (by decide) 3
      ⟨[], []⟩ 1 0 "t" (by decide)⟩

/-- C8: for every string h, set_html h behaves identically to navigate
applied to the concatenation of the data-URL prefix and h: same result and
same issued native calls (including the same early NullError failure). -/
theorem C8_set_html_is_navigate_data_url
    (self : Webview) (html : String) (ret : Int) :
    self.set_html html ret = set_html_spec self html ret := rfl

/-- C9: set_size forwards the (width, height, hint) triple unmodified to
the native set-size call, with the hint encoded by its enumeration value
(None = 0, Min = 1, Max = 2, Fixed = 3); in particular (800, 600, Fixed)
is forwarded exactly as (800, 600, 3). -/
theorem C9_set_size_forwards_triple
    (self : Webview) (w ht : Int) (hint : SizeHint) (ret : Int) :
    (self.set_size w ht hint ret).2 =
        [.set_size self.inner w ht hint.toU32] ∧
    SizeHint.toU32 .None = 0 ∧ SizeHint.toU32 .Min = 1 ∧
    SizeHint.toU32 .Max = 2 ∧ SizeHint.toU32 .Fixed = 3 ∧
    (self.set_size 800 600 .Fixed ret).2 =
        [.set_size self.inner 800 600 3] :=
  ⟨rfl, rfl, rfl, rfl, rfl, rfl⟩

lemma cloneMany_strong (self : Webview) (n : Nat) (st : ArcState) :
    (cloneMany self n st).strong = st.strong + n := by
  induction n generalizing st with
  | zero => rfl
  | succ k ih =>
    rw [cloneMany, ih]
    simp [Webview.clone]
    omega

lemma dropMany_no_calls (self : Webview) (k : Nat) (st : ArcState)
    (h : k ≤ st.strong) :
    (dropMany self k st).2 = [] ∧ (dropMany self k st).1.strong = st.strong - k := by
  induction k generalizing st with
  | zero => exact ⟨rfl, rfl⟩
  | succ m ih =>
    have hpos : ¬st.strong = 0 := by omega
    obtain ⟨h1, h2⟩ := ih ⟨st.strong - 1⟩ (by simp; omega)
    constructor
    · simp [dropMany, Webview.drop, if_neg hpos, h1]
    · have h2' := h2
      simp at h2'
      simp [dropMany, Webview.drop, if_neg hpos, h2']
      omega

/-- C1 (code behaviour at the claimed scenario): create a webview, clone it
n times, then drop all n + 1 references. The code performs no native
teardown call at any drop — including the final one — because
`Arc::strong_count` is still at least 1 inside `Drop::drop` (the `Arc`
field is only decremented after the drop body), so the `== 0` guard in the
source never fires. The final state has all references gone. -/
theorem C1_drop_performs_no_teardown (dbg : Bool) (h : Handle) (n : Nat) :
    (dropMany (create_no_win dbg h).1 (n + 1)
        (cloneMany (create_no_win dbg h).1 n (create_no_win dbg h).2)).2 = [] ∧
    (dropMany (create_no_win dbg h).1 (n + 1)
        (cloneMany (create_no_win dbg h).1 n (create_no_win dbg h).2)).1.strong
      = 0 := by
  have hs : (cloneMany (create_no_win dbg h).1 n (create_no_win dbg h).2).strong
      = 1 + n := by
    rw [cloneMany_strong]
    rfl
  have hle : n + 1 ≤
      (cloneMany (create_no_win dbg h).1 n (create_no_win dbg h).2).strong := by
    omega
  obtain ⟨h1, h2⟩ := dropMany_no_calls (create_no_win dbg h).1 (n + 1) _ hle
  exact ⟨h1, by rw [h2, hs]; omega⟩

/-- Invariant tying a dispatched closure `cid` to the handle `H` of the
webview it was dispatched on: either it is still pending (exactly once,
with handle `H`) and owned on the heap, or it has been invoked (exactly
once, receiving a webview whose handle is `H`) and its storage reclaimed. -/
def DispatchInv (cid : Nat) (H : Handle) (st : DispatchState) : Prop :=
  (pendCount cid st = 1 ∧ heapCount cid st = 1 ∧ invCount cid st = 0 ∧
      ∀ p ∈ st.pending, p.2 = cid → p.1 = H) ∨
  (pendCount cid st = 0 ∧ heapCount cid st = 0 ∧ invCount cid st = 1 ∧
      ∀ q ∈ st.invoked, q.1 = cid → q.2 = H)

lemma dispatchInv_loopStep (cid : Nat) (H : Handle) (st : DispatchState)
    (hinv : DispatchInv cid H st) : DispatchInv cid H (loopStep st) := by
  obtain ⟨pending, heap, invoked⟩ := st
  cases pending with
  | nil => simpa [loopStep] using hinv
  | cons hd rest =>
    obtain ⟨h, c⟩ := hd
    have hstep : loopStep ⟨(h, c) :: rest, heap, invoked⟩ =
        ⟨rest, heap.erase c, invoked ++ [(c, h)]⟩ := rfl
    rw [hstep]
    by_cases hc : c = cid
    · subst hc
      rcases hinv with ⟨hp, hh, hi, hH⟩ | ⟨hp, _, _, _⟩
      · right
        simp only [pendCount, List.countP_cons] at hp
        simp only [beq_self_eq_true, if_pos] at hp
        have hrest : (rest.countP fun p => p.2 == c) = 0 := by omega
        have hhd : h = H := hH (h, c) (List.mem_cons_self _ _) rfl
        refine ⟨hrest, ?_, ?_, ?_⟩
        · simp only [heapCount] at hh ⊢
          rw [List.count_erase_self]
          omega
        · simp only [invCount, List.countP_append, List.countP_cons,
            List.countP_nil] at hi ⊢
          simp [hi]
        · intro q hq hq1
          rcases List.mem_append.mp hq with hq' | hq'
          · exfalso
            simp only [invCount] at hi
            have := List.countP_eq_zero.mp hi q hq'
            simp [hq1] at this
          · simp only [List.mem_singleton] at hq'
            rw [hq', hhd]
      · exfalso
        simp only [pendCount, List.countP_cons, beq_self_eq_true,
          if_pos] at hp
        omega
    · have hc' : cid ≠ c := fun hx => hc hx.symm
      rcases hinv with ⟨hp, hh, hi, hH⟩ | ⟨hp, hh, hi, hH⟩
      · left
        simp only [pendCount, List.countP_cons] at hp ⊢
        have hcb : ((h, c).2 == cid) = false := by
          simp [hc]
        rw [hcb] at hp
        simp at hp
        refine ⟨hp, ?_, ?_, ?_⟩
        · simp only [heapCount] at hh ⊢
          rw [List.count_erase_of_ne hc']
          exact hh
        · simp only [invCount, List.countP_append, List.countP_cons,
            List.countP_nil] at hi ⊢
          simp [hi, hc]
        · intro p hp' hp2
          exact hH p (List.mem_cons_of_mem _ hp') hp2
      · right
        have hp0 : (rest.countP fun p => p.2 == cid) = 0 := by
          simp only [pendCount] at hp
          rw [List.countP_eq_zero] at hp ⊢
          intro a ha
          exact hp a (List.mem_cons_of_mem _ ha)
        refine ⟨hp0, ?_, ?_, ?_⟩
        · simp only [heapCount] at hh ⊢
          rw [List.count_erase_of_ne hc']
          exact hh
        · simp only [invCount, List.countP_append, List.countP_cons,
            List.countP_nil] at hi ⊢
          simp [hi, hc]
        · intro q hq hq1
          rcases List.mem_append.mp hq with hq' | hq'
          · exact hH q hq' hq1
          · exfalso
            simp only [List.mem_singleton] at hq'
            rw [hq'] at hq1
            exact hc hq1

lemma dispatchInv_loopSteps (cid : Nat) (H : Handle) (n : Nat)
    (st : DispatchState) (hinv : DispatchInv cid H st) :
    DispatchInv cid H (loopSteps n st) := by
  induction n generalizing st with
  | zero => exact hinv
  | succ m ih => exact ih _ (dispatchInv_loopStep cid H st hinv)

lemma dispatch_establishes_inv (self : Webview) (cid : Nat)
    (st : DispatchState) (hp : pendCount cid st = 0)
    (hh : heapCount cid st = 0) (hi : invCount cid st = 0) :
    DispatchInv cid self.inner (self.dispatch cid 0 st).2.2 := by
  obtain ⟨pending, heap, invoked⟩ := st
  have hd : (Webview.dispatch self cid 0 ⟨pending, heap, invoked⟩).2.2 =
      ⟨pending ++ [(self.inner, cid)], heap ++ [cid], invoked⟩ := rfl
  rw [hd]
  left
  refine ⟨?_, ?_, hi, ?_⟩
  · simp only [pendCount, List.countP_append, List.countP_cons,
      List.countP_nil] at hp ⊢
    simp [hp]
  · simp only [heapCount, List.count_append] at hh ⊢
    simp [hh]
  · intro p hp' hp2
    rcases List.mem_append.mp hp' with hq | hq
    · exfalso
      simp only [pendCount] at hp
      have := List.countP_eq_zero.mp hp p hq
      simp [hp2] at this
    · simp only [List.mem_singleton] at hq
      rw [hq]

lemma dispatchInv_conclusions (cid : Nat) (H : Handle) (st : DispatchState)
    (hinv : DispatchInv cid H st) :
    invCount cid st ≤ 1 ∧ (∀ q ∈ st.invoked, q.1 = cid → q.2 = H) ∧
    (invCount cid st = 1 → heapCount cid st = 0) := by
  rcases hinv with ⟨_, _, hi, _⟩ | ⟨_, hh, hi, hH⟩
  · refine ⟨by omega, ?_, by omega⟩
    intro q hq hq1
    exfalso
    simp only [invCount] at hi
    have := List.countP_eq_zero.mp hi q hq
    simp [hq1] at this
  · exact ⟨by omega, hH, fun _ => hh⟩

/-- C5: after a successful dispatch of a fresh closure `cid` on a webview
with handle `self.inner`, however many steps the native loop later runs:
the closure is invoked at most once; every invocation hands it a `Webview`
whose `inner` handle is exactly `self.inner` (the same underlying native
handle value, not a new instance); and once invoked, its heap storage has
been reclaimed (consumed exactly once at invocation). -/
theorem C5_dispatch_invoked_once_with_aliased_handle (self : Webview)
    (cid : Nat) (st : DispatchState) (hp : pendCount cid st = 0)
    (hh : heapCount cid st = 0) (hi : invCount cid st = 0) (n : Nat) :
    invCount cid (loopSteps n (self.dispatch cid 0 st).2.2) ≤ 1 ∧
    (∀ q ∈ (loopSteps n (self.dispatch cid 0 st).2.2).invoked,
        q.1 = cid → q.2 = self.inner) ∧
    (invCount cid (loopSteps n (self.dispatch cid 0 st).2.2) = 1 →
      heapCount cid (loopSteps n (self.dispatch cid 0 st).2.2) = 0) :=
  dispatchInv_conclusions cid self.inner _
    (dispatchInv_loopSteps cid self.inner n _
      (dispatch_establishes_inv self cid st hp hh hi))

/-- Witness for C5: dispatch closure 0 on handle 7 from the empty state and
run one loop step. -/
theorem C5_witness :
    ((pendCount 0 ⟨[], [], []⟩ = 0 ∧ heapCount 0 ⟨[], [], []⟩ = 0 ∧
        invCount 0 ⟨[], [], []⟩ = 0) ∧
      invCount 0 (loopSteps 1 ((Webview.mk 7).dispatch 0 0 ⟨[], [], []⟩).2.2) ≤ 1 ∧
      (∀ q ∈ (loopSteps 1 ((Webview.mk 7).dispatch 0 0 ⟨[], [], []⟩).2.2).invoked,
          q.1 = 0 → q.2 = (Webview.mk 7).inner) ∧
      (invCount 0 (loopSteps 1 ((Webview.mk 7).dispatch 0 0 ⟨[], [], []⟩).2.2) = 1 →
        heapCount 0 (loopSteps 1 ((Webview.mk 7).dispatch 0 0 ⟨[], [], []⟩).2.2) = 0)) :=
  ⟨⟨by decide, by decide, by decide⟩,
    C5_dispatch_invoked_once_with_aliased_handle ⟨7⟩ 0 ⟨[], [], []⟩
      (by decide) (by decide) (by decide) 1⟩

lemma loopStep_untouched (cid : Nat) (st : DispatchState)
    (hp : pendCount cid st = 0) :
    pendCount cid (loopStep st) = 0 ∧
    invCount cid (loopStep st) = invCount cid st ∧
    heapCount cid (loopStep st) = heapCount cid st := by
  obtain ⟨pending, heap, invoked⟩ := st
  cases pending with
  | nil => exact ⟨hp, rfl, rfl⟩
  | cons hd rest =>
    obtain ⟨h, c⟩ := hd
    have hstep : loopStep ⟨(h, c) :: rest, heap, invoked⟩ =
        ⟨rest, heap.erase c, invoked ++ [(c, h)]⟩ := rfl
    have hc : c ≠ cid := by
      intro hx
      simp only [pendCount] at hp
      have := List.countP_eq_zero.mp hp (h, c) (List.mem_cons_self _ _)
      simp [hx] at this
    rw [hstep]
    refine ⟨?_, ?_, ?_⟩
    · simp only [pendCount] at hp ⊢
      rw [List.countP_eq_zero] at hp ⊢
      intro a ha
      exact hp a (List.mem_cons_of_mem _ ha)
    · simp only [invCount, List.countP_append, List.countP_cons,
        List.countP_nil]
      simp [hc]
    · simp only [heapCount]
      exact List.count_erase_of_ne (fun hx => hc hx.symm) heap

lemma loopSteps_untouched (cid : Nat) (n : Nat) (st : DispatchState)
    (hp : pendCount cid st = 0) :
    pendCount cid (loopSteps n st) = 0 ∧
    invCount cid (loopSteps n st) = invCount cid st ∧
    heapCount cid (loopSteps n st) = heapCount cid st := by
  induction n generalizing st with
  | zero => exact ⟨hp, rfl, rfl⟩
  | succ m ih =>
    obtain ⟨h1, h2, h3⟩ := loopStep_untouched cid st hp
    obtain ⟨g1, g2, g3⟩ := ih (loopStep st) h1
    exact ⟨g1, g2.trans h2, g3.trans h3⟩

/-- C7: if the native scheduling call inside dispatch returns a non-zero
status, dispatch returns the translated Internal error, the closure is
never invoked (even after any number of native loop steps), and its heap
storage is not reclaimed by the wrapper (it stays allocated: the leak the
specification flags as an open question). -/
theorem C7_dispatch_failure_not_invoked_not_reclaimed (self : Webview)
    (cid : Nat) (ret : Int) (st : DispatchState) (hret : ret ≠ 0)
    (hp : pendCount cid st = 0) (hh : heapCount cid st = 0)
    (hi : invCount cid st = 0) (n : Nat) :
    (self.dispatch cid ret st).1 = .error (.Internal (transmuteI32 ret)) ∧
    invCount cid (loopSteps n (self.dispatch cid ret st).2.2) = 0 ∧
    heapCount cid (loopSteps n (self.dispatch cid ret st).2.2) = 1 := by
  obtain ⟨pending, heap, invoked⟩ := st
  have hd : Webview.dispatch self cid ret ⟨pending, heap, invoked⟩ =
      (.error (.Internal (transmuteI32 ret)), [.dispatch self.inner cid],
        ⟨pending, heap ++ [cid], invoked⟩) := by
    simp [Webview.dispatch, hret]
  rw [hd]
  have hp1 : pendCount cid ⟨pending, heap ++ [cid], invoked⟩ = 0 := hp
  obtain ⟨g1, g2, g3⟩ := loopSteps_untouched cid n _ hp1
  refine ⟨rfl, ?_, ?_⟩
  · rw [g2]
    exact hi
  · rw [g3]
    simp only [heapCount, List.count_append] at hh ⊢
    simp [hh]

/-- Witness for C7: failed dispatch (status -1) of closure 0 on handle 7
from the empty state, followed by one loop step. -/
theorem C7_witness :
    (((-1 : Int) ≠ 0 ∧ pendCount 0 ⟨[], [], []⟩ = 0 ∧
        heapCount 0 ⟨[], [], []⟩ = 0 ∧ invCount 0 ⟨[], [], []⟩ = 0) ∧
      ((Webview.mk 7).dispatch 0 (-1) ⟨[], [], []⟩).1 =
        .error (.Internal (transmuteI32 (-1))) ∧
      invCount 0 (loopSteps 1 ((Webview.mk 7).dispatch 0 (-1) ⟨[], [], []⟩).2.2)
        = 0 ∧
      heapCount 0 (loopSteps 1 ((Webview.mk 7).dispatch 0 (-1) ⟨[], [], []⟩).2.2)
        = 1) :=
  ⟨⟨by decide, by decide, by decide, by decide⟩,
    C7_dispatch_failure_not_invoked_not_reclaimed ⟨7⟩ 0 (-1) ⟨[], [], []⟩
      (by decide) (by decide) (by decide) (by decide) 1⟩

lemma bindCallback_heap (cid : Nat) (s r : List Nat) (st : BindState)
    (hcid : st.heap.count cid = 1) :
    ((bindCallback cid s r st).2.heap.count cid = 1) := by
  unfold bindCallback
  cases utf8Decode s with
  | none => exact hcid
  | some sd =>
    cases utf8Decode r with
    | none => exact hcid
    | some rd =>
      simp only [List.count_append]
      rw [List.count_erase_self]
      simp [hcid]

/-- C6: a handler registered via bind keeps ownership of its captured
state across native invocations: each invocation of `bind::callback`
leaves exactly one heap allocation for the handler in place (the
`Box::from_raw` is cancelled by `mem::forget`), over arbitrarily many
invocations; and each successfully decoded invocation runs the handler
exactly once, appending one entry to the invocation log. The storage is
never reclaimed by an invocation. -/
theorem C6_bind_state_persists_across_invocations (cid : Nat)
    (st : BindState) (hcid : st.heap.count cid = 1)
    (invs : List (List Nat × List Nat)) :
    (runInvocations cid invs st).heap.count cid = 1 ∧
    (∀ s r sd rd, utf8Decode s = some sd → utf8Decode r = some rd →
      (bindCallback cid s r st).2.calls = st.calls ++ [(cid, sd, rd)] ∧
      (bindCallback cid s r st).2.heap.count cid = 1) := by
  constructor
  · induction invs generalizing st with
    | nil => exact hcid
    | cons p rest ih =>
      exact ih _ (bindCallback_heap cid p.1 p.2 st hcid)
  · intro s r sd rd hsd hrd
    refine ⟨?_, bindCallback_heap cid s r st hcid⟩
    unfold bindCallback
    rw [hsd, hrd]

/-- Witness for C6: handler 0 owned once, invoked twice with the ASCII
bytes "h" and "i". -/
theorem C6_witness :
    (((⟨[0], []⟩ : BindState).heap.count 0 = 1) ∧
      (runInvocations 0 [([104], [105]), ([104], [105])]
          ⟨[0], []⟩).heap.count 0 = 1 ∧
      ((bindCallback 0 [104] [105] ⟨[0], []⟩).2.calls =
          ([] : List (Nat × List Nat × List Nat)) ++ [(0, [104], [105])] ∧
        (bindCallback 0 [104] [105] ⟨[0], []⟩).2.heap.count 0 = 1)) :=
  ⟨by decide,
    (C6_bind_state_persists_across_invocations 0 ⟨[0], []⟩ (by decide)
        [([104], [105]), ([104], [105])]).1,
    (C6_bind_state_persists_across_invocations 0 ⟨[0], []⟩ (by decide)
        [([104], [105]), ([104], [105])]).2 [104] [105] [104] [105]
      (by decide) (by decide)⟩

/-- C10: if the native engine invokes a bound callback with a sequence
token or request payload that is not valid UTF-8, the callback panics
(from the `expect` on `CStr::to_str`) without invoking the handler or
touching its state; and whenever the handler does run, its two arguments
are the successful UTF-8 decodings of the native byte strings, so the
handler only ever sees valid UTF-8 text. -/
theorem C10_bind_callback_requires_valid_utf8 (cid : Nat)
    (seqB reqB : List Nat) (st : BindState) :
    ((utf8Decode seqB = none ∨ utf8Decode reqB = none) →
      (bindCallback cid seqB reqB st).2 = st ∧
      ∃ msg, (bindCallback cid seqB reqB st).1 = .panicked msg) ∧
    (∀ s r, (bindCallback cid seqB reqB st).1 = .handlerRan s r →
      utf8Decode seqB = some s ∧ utf8Decode reqB = some r) := by
  cases hsd : utf8Decode seqB with
  | none =>
    refine ⟨fun _ => ?_, fun s r h => ?_⟩
    · unfold bindCallback
      rw [hsd]
      exact ⟨rfl, ⟨_, rfl⟩⟩
    · unfold bindCallback at h
      rw [hsd] at h
      exact BindOutcome.noConfusion h
  | some sd =>
    cases hrd : utf8Decode reqB with
    | none =>
      refine ⟨fun _ => ?_, fun s r h => ?_⟩
      · unfold bindCallback
        rw [hsd, hrd]
        exact ⟨rfl, ⟨_, rfl⟩⟩
      · unfold bindCallback at h
        rw [hsd, hrd] at h
        exact BindOutcome.noConfusion h
    | some rd =>
      refine ⟨fun hx => ?_, fun s r h => ?_⟩
      · rcases hx with hx | hx
        · exact absurd hx (by simp)
        · exact absurd hx (by simp)
      · unfold bindCallback at h
        rw [hsd, hrd] at h
        simp only [BindOutcome.handlerRan.injEq] at h
        refine ⟨?_, ?_⟩
        · rw [h.1]
        · rw [h.2]

/-- Witness for C10: byte 0xFF is not valid UTF-8, so the callback panics
and the handler state is untouched. -/
theorem C10_witness :
    ((utf8Decode [255] = none ∨ utf8Decode [105] = none) ∧
      ((bindCallback 0 [255] [105] ⟨[0], []⟩).2 = (⟨[0], []⟩ : BindState) ∧
        ∃ msg, (bindCallback 0 [255] [105] ⟨[0], []⟩).1 =
          .panicked msg)) :=
  ⟨Or.inl (by decide),
    (C10_bind_callback_requires_valid_utf8 0 [255] [105] ⟨[0], []⟩).1
      (Or.inl (by decide))⟩
